import Mathlib

/-
Verification of the exoatlas derived-quantity layer
(`exoatlas/populations/calculations/planetary.py` and the
standardization step of `exoatlas/populations/exoplanets/exoplanets.py`).

Modelling conventions, used throughout:

* Python / numpy float arrays are modelled as `List PyFloat`, where
  `PyFloat` is an exact real number tagged with the IEEE special values
  `nan`, `inf` (positive infinity) and `ninf` (negative infinity).
  Exact real arithmetic stands in for float64 arithmetic; signed zero is
  not modelled (reals have a single zero, and `x / 0` for positive `x`
  is taken to be `inf`, as for division by numpy +0.0).
* numpy vectorized expressions are modelled elementwise with
  `List.zipWith` / `List.map`.  The masked-assignment pattern
  `bad = (np.isfinite(a) == False); a[bad] = rhs[bad]` with an
  elementwise `rhs` is modelled by `fillBad a rhs` which overwrites
  exactly the non-finite entries; `a[mask] = c` for a general
  boolean mask and scalar `c` is modelled by `maskedSet a mask c`.
  numpy would raise on arrays of mismatched lengths where `zipWith`
  silently truncates; the well-formedness predicate `Standard.WF`
  records that all columns of one standardized table share a length.
* astropy Quantity unit handling is modelled by fixing, for each
  standardized column, the unit it carries after the standardization in
  `exoplanets.py` (AU for `semimajoraxis`, day for `period`, Msun for
  `stellar_mass`, Rsun for `stellar_radius`, deg for `omega` and
  `inclination`, hour for `transit_duration`, Gyr for `stellar_age`,
  Mearth for `mass` and `msini`, dimensionless for the rest) and by
  inserting the exact conversion factor wherever astropy would convert
  (a `.to(...)` call, a `np.sin`/`np.cos` of a quantity in degrees, or
  an astropy setitem of a quantity into a column of a different but
  compatible unit).
* each accessor property of the source reads `self.standard[...]` and
  never writes to it; accessors are embedded as explicit state-passing
  functions `Standard -> List PyFloat × Standard` in which every table
  read passes the store through, so that the frame claim about the
  store is visible in the embedding rather than assumed.
-/

namespace ExoAtlas

/-- A numpy float64 value: an exact real, or one of the IEEE special
values (not-a-number, positive infinity, negative infinity). -/
inductive PyFloat where
  | nan : PyFloat
  | inf : PyFloat
  | ninf : PyFloat
  | val : ℝ → PyFloat

open PyFloat

/-- Model of `np.isfinite`, elementwise. -/
def isFinite : PyFloat → Bool
  | val _ => true
  | _ => false

/-- Model of `np.isnan`, elementwise. -/
def isNan : PyFloat → Bool
  | nan => true
  | _ => false

/-- IEEE addition. -/
noncomputable def pyAdd : PyFloat → PyFloat → PyFloat
  | nan, _ => nan
  | _, nan => nan
  | inf, ninf => nan
  | ninf, inf => nan
  | inf, _ => inf
  | _, inf => inf
  | ninf, _ => ninf
  | _, ninf => ninf
  | val x, val y => val (x + y)

/-- IEEE subtraction. -/
noncomputable def pySub : PyFloat → PyFloat → PyFloat
  | nan, _ => nan
  | _, nan => nan
  | inf, inf => nan
  | ninf, ninf => nan
  | inf, _ => inf
  | _, inf => ninf
  | ninf, _ => ninf
  | _, ninf => inf
  | val x, val y => val (x - y)

/-- IEEE multiplication (`inf * 0` is `nan`). -/
noncomputable def pyMul : PyFloat → PyFloat → PyFloat
  | nan, _ => nan
  | _, nan => nan
  | inf, inf => inf
  | inf, ninf => ninf
  | ninf, inf => ninf
  | ninf, ninf => inf
  | inf, val y => if 0 < y then inf else if y < 0 then ninf else nan
  | val x, inf => if 0 < x then inf else if x < 0 then ninf else nan
  | ninf, val y => if 0 < y then ninf else if y < 0 then inf else nan
  | val x, ninf => if 0 < x then ninf else if x < 0 then inf else nan
  | val x, val y => val (x * y)

/-- IEEE division (`x / 0` gives a signed infinity for `x ≠ 0` and
`nan` for `x = 0`; `inf / inf` is `nan`; `x / inf` is zero). -/
noncomputable def pyDiv : PyFloat → PyFloat → PyFloat
  | nan, _ => nan
  | _, nan => nan
  | inf, inf => nan
  | inf, ninf => nan
  | ninf, inf => nan
  | ninf, ninf => nan
  | inf, val y => if 0 ≤ y then inf else ninf
  | ninf, val y => if 0 ≤ y then ninf else inf
  | val _, inf => val 0
  | val _, ninf => val 0
  | val x, val y =>
    if y = 0 then (if x = 0 then nan else if 0 < x then inf else ninf)
    else val (x / y)

/-- Model of `np.sqrt` (negative arguments give `nan`). -/
noncomputable def pySqrt : PyFloat → PyFloat
  | nan => nan
  | inf => inf
  | ninf => nan
  | val x => if x < 0 then nan else val (Real.sqrt x)

/-- Model of `np.sin` on a quantity already expressed in radians. -/
noncomputable def pySin : PyFloat → PyFloat
  | val x => val (Real.sin x)
  | _ => nan

/-- Model of `np.cos` on a quantity already expressed in radians. -/
noncomputable def pyCos : PyFloat → PyFloat
  | val x => val (Real.cos x)
  | _ => nan

/-- Model of `** 2` on a float (computed as a self-product). -/
noncomputable def pyPow2 (x : PyFloat) : PyFloat := pyMul x x

/-- Model of `** (1 / 3)`: numpy yields `nan` for a negative base with
a non-integer float exponent, and the real cube root otherwise. -/
noncomputable def pyPow13 : PyFloat → PyFloat
  | nan => nan
  | inf => inf
  | ninf => nan
  | val x => if 0 ≤ x then val (x ^ ((1 : ℝ) / 3)) else nan

/-- IEEE strict less-than as a boolean (`nan` compares false). -/
noncomputable def pyLt : PyFloat → PyFloat → Bool
  | nan, _ => false
  | _, nan => false
  | inf, _ => false
  | _, inf => true
  | ninf, ninf => false
  | ninf, _ => true
  | _, ninf => false
  | val x, val y => decide (x < y)

/-- Equality comparison against the scalar `0` (`nan == 0` is false). -/
noncomputable def pyEq0 : PyFloat → Bool
  | val x => decide (x = 0)
  | _ => false

/-- The replacement `arr[np.isnan(arr)] = np.inf` applied elementwise. -/
def nanToInf (x : PyFloat) : PyFloat := if isNan x then inf else x

namespace con

/-- astropy `con.G`, the gravitational constant in SI units. -/
noncomputable def G : ℝ := 6.6743e-11

/-- The IAU nominal solar mass parameter GM_sun in SI units, from which
astropy derives the solar mass. -/
noncomputable def GM_sun : ℝ := 1.3271244e20

/-- astropy `u.Msun` expressed in kg (nominal GM_sun divided by G). -/
noncomputable def M_sun : ℝ := GM_sun / G

/-- One day in seconds. -/
noncomputable def day : ℝ := 86400

/-- astropy `u.AU` expressed in meters (IAU exact value). -/
noncomputable def au : ℝ := 1.495978707e11

/-- astropy `u.Rsun` expressed in meters (IAU nominal solar radius). -/
noncomputable def R_sun : ℝ := 6.957e8

/-- Degrees-to-radians conversion factor. -/
noncomputable def degree : ℝ := Real.pi / 180

end con

/-- Multiplication by a positive real conversion factor, modelling an
astropy unit conversion applied to one element. -/
noncomputable def convertBy (c : ℝ) (x : PyFloat) : PyFloat := pyMul x (val c)

/-- The masked-fill pattern
`bad = (np.isfinite(a) == False); a[bad] = rhs[bad]`
for an elementwise right-hand side: keep finite entries, overwrite the
rest with the corresponding replacement entry. -/
def fillBad (a rhs : List PyFloat) : List PyFloat :=
  List.zipWith (fun x y => if isFinite x then x else y) a rhs

/-- The masked-fill pattern `a[bad] = c` for a scalar `c`, where
`bad = (np.isfinite(a) == False)`. -/
def fillBadConst (a : List PyFloat) (c : PyFloat) : List PyFloat :=
  a.map (fun x => if isFinite x then x else c)

/-- The masked-assignment pattern `a[mask] = c` for a scalar `c` and an
arbitrary boolean mask. -/
def maskedSet (a : List PyFloat) (mask : List Bool) (c : PyFloat) : List PyFloat :=
  List.zipWith (fun x m => if m then c else x) a mask

/-- The masked-assignment pattern `a[mask] = rhs[mask]` for an
arbitrary boolean mask and an array right-hand side. -/
def maskedSetArr (a : List PyFloat) (mask : List Bool) (rhs : List PyFloat) : List PyFloat :=
  List.zipWith (fun xm y => if xm.2 then y else xm.1) (List.zipWith Prod.mk a mask) rhs

/-- The number of non-finite entries of an array, as counted by the
diagnostic `sum(np.isfinite(a) == False)` calls of the source. -/
def countBad (a : List PyFloat) : ℕ := a.countP (fun x => !isFinite x)

/-- One standardized table (the Quantity Store), restricted to the
columns that the verified accessors read.  Column names and units
follow `create_standardardized` in `exoplanets.py`: `semimajoraxis` in
AU, `period` in day, `stellar_mass` in Msun, `stellar_radius` in Rsun,
`eccentricity` dimensionless, `omega` and `inclination` in deg,
`transit_ar` and `transit_b` dimensionless, `transit_duration` in hour,
`mass` and `msini` in Mearth, `stellar_age` in Gyr.  The `msini` column
is optional because its absence is caught by a `try/except` in
`kludge_mass`; the remaining columns are always present in the
standardized schema this development models. -/
structure Standard where
  semimajoraxis : List PyFloat
  period : List PyFloat
  stellar_mass : List PyFloat
  stellar_radius : List PyFloat
  transit_ar : List PyFloat
  eccentricity : List PyFloat
  omega : List PyFloat
  inclination : List PyFloat
  transit_b : List PyFloat
  transit_duration : List PyFloat
  mass : List PyFloat
  msini : Option (List PyFloat)
  stellar_age : List PyFloat

/-- All columns of one standardized table share the population length
`n` (astropy tables enforce this at construction). -/
def Standard.WF (s : Standard) (n : ℕ) : Prop :=
  s.semimajoraxis.length = n ∧ s.period.length = n ∧
  s.stellar_mass.length = n ∧ s.stellar_radius.length = n ∧
  s.transit_ar.length = n ∧ s.eccentricity.length = n ∧
  s.omega.length = n ∧ s.inclination.length = n ∧
  s.transit_b.length = n ∧ s.transit_duration.length = n ∧
  s.mass.length = n ∧ (∀ ms, s.msini = some ms → ms.length = n) ∧
  s.stellar_age.length = n

/-- The Kepler fill value of `semimajoraxis`, for one element: the
expression `((G * M * P**2 / 4 / np.pi**2) ** (1 / 3)).to("AU")` of the
source with `P` in day and `M` in Msun, SI conversion factors made
explicit (astropy carries the composite unit through the monomial and
converts once at the final `.to`, which is numerically the same as
converting each factor to SI upfront). -/
noncomputable def pyKepler (P M : PyFloat) : PyFloat :=
  pyDiv
    (pyPow13
      (pyDiv
        (pyDiv (pyMul (pyMul (val con.G) (convertBy con.M_sun M))
                      (pyPow2 (convertBy con.day P)))
               (val 4))
        (val (Real.pi ^ 2))))
    (val con.au)

/-- The transit-geometry fill value of `semimajoraxis`, for one
element: `a_over_rs * rs` with `rs` in Rsun, assigned by astropy into
the AU-unit column (hence the Rsun-to-AU conversion factor). -/
noncomputable def transitGeomFill (ar rs : PyFloat) : PyFloat :=
  convertBy (con.R_sun / con.au) (pyMul ar rs)

/-- The `semimajoraxis` property.  Reads the table column, fills
non-finite entries from the third law of Kepler using `self.period`
and `self.stellar_mass` (plain stored columns through the accessor
resolution layer), then fills entries that are still non-finite from
`transit_ar` and `stellar_radius` read directly from the table.  The
`try/except KeyError` around the second fill never fires in the
modelled schema, where `transit_ar` and `stellar_radius` are always
present.  The store is threaded through explicitly: the source only
ever reads `self.standard`, so the state component passes unchanged. -/
noncomputable def semimajoraxis (s : Standard) : List PyFloat × Standard :=
  let a := s.semimajoraxis
  let P := s.period
  let M := s.stellar_mass
  let a1 := fillBad a (List.zipWith pyKepler P M)
  let a2 := fillBad a1 (List.zipWith transitGeomFill s.transit_ar s.stellar_radius)
  (a2, s)

/-- The `e` property: the `eccentricity` column with every non-finite
entry set to the scalar `0`. -/
noncomputable def e (s : Standard) : List PyFloat × Standard :=
  let ecc := s.eccentricity
  (fillBadConst ecc (val 0), s)

/-- The `omega` property: the `omega` column (deg), with
`omega[e_zero] = 0 * u.deg` where `e_zero = (self.e == 0)`.  Note the
assignment mask of the source is `e_zero`, not its intersection with
the non-finite mask `bad` (which is only used for a diagnostic). -/
noncomputable def omega (s : Standard) : List PyFloat × Standard :=
  let om := s.omega
  let (ev, s) := e s
  let e_zero := ev.map pyEq0
  (maskedSet om e_zero (val 0), s)

/-- The `a_over_rs` property: the `transit_ar` column, with non-finite
entries filled by `self.semimajoraxis / self.stellar_radius` (AU over
Rsun, converted to dimensionless by the astropy setitem). -/
noncomputable def a_over_rs (s : Standard) : List PyFloat × Standard :=
  let ar := s.transit_ar
  let (a, s) := semimajoraxis s
  let R := s.stellar_radius
  let fill := List.zipWith (fun ai ri => convertBy (con.au / con.R_sun) (pyDiv ai ri)) a R
  (fillBad ar fill, s)

/-- The `b` property (transit impact parameter): the `transit_b`
column, with non-finite entries filled by
`a_over_rs * np.cos(i) * ((1 - e**2) / (1 + e * np.sin(omega)))`,
where the inclination `i` is read directly from the table in degrees
(converted to radians by `np.cos`) and `e` and `omega` come from the
gap-filling accessors. -/
noncomputable def b (s : Standard) : List PyFloat × Standard :=
  let bc := s.transit_b
  let (ars, s) := a_over_rs s
  let i := s.inclination
  let (ev, s) := e s
  let (om, s) := omega s
  let eccFactor := List.zipWith
    (fun ei wi =>
      pyDiv (pySub (val 1) (pyPow2 ei))
            (pyAdd (val 1) (pyMul ei (pySin (convertBy con.degree wi)))))
    ev om
  let fill := List.zipWith pyMul
    (List.zipWith pyMul ars (i.map (fun x => pyCos (convertBy con.degree x))))
    eccFactor
  (fillBad bc fill, s)

/-- Modelled from the spec: the `impact_parameter` name used by
`transit_duration` resolves to the transit impact parameter accessor
`b`; the aliasing itself lives outside the provided source files, and
the spec treats the two names as the same quantity. -/
noncomputable def impact_parameter (s : Standard) : List PyFloat × Standard := b s

/-- The `transit_duration` property: the `transit_duration` column
(hour), with non-finite entries filled by
`T0 = P / np.pi / a_over_rs`, `T = T0 * np.sqrt(1 - b**2)` and the
eccentricity factor `np.sqrt(1 - e**2) / (1 + e * np.sin(omega))`,
the product converted `.to(u.day)` (a day-valued quantity, which the
astropy setitem then converts into the hour-unit column, hence the
final factor 24).  Numpy warnings are suppressed in the source; they
do not change any value. -/
noncomputable def transit_duration (s : Standard) : List PyFloat × Standard :=
  let d := s.transit_duration
  let P := s.period
  let (ars, s) := a_over_rs s
  let (bb, s) := impact_parameter s
  let T0 := List.zipWith (fun pi_ ai => pyDiv (pyDiv pi_ (val Real.pi)) ai) P ars
  let T := List.zipWith pyMul T0
    (bb.map (fun x => pySqrt (pySub (val 1) (pyPow2 x))))
  let (ev, s) := e s
  let (om, s) := omega s
  let factor := List.zipWith
    (fun ei wi =>
      pyDiv (pySqrt (pySub (val 1) (pyPow2 ei)))
            (pyAdd (val 1) (pyMul ei (pySin (convertBy con.degree wi)))))
    ev om
  let fill := (List.zipWith pyMul T factor).map (convertBy 24)
  (fillBad d fill, s)

/-- The `kludge_mass` property: the `mass` column, with non-finite
entries filled from `self.msini` when that column resolves; the
`try/except` of the source skips the fill when it does not. -/
noncomputable def kludge_mass (s : Standard) : List PyFloat × Standard :=
  let M := s.mass
  match s.msini with
  | some ms => (fillBad M ms, s)
  | none => (M, s)

/-- The `kludge_age` property: the `stellar_age` column (Gyr), with
every non-finite entry set to the scalar `5` (Gyr). -/
noncomputable def kludge_age (s : Standard) : List PyFloat × Standard :=
  let age := s.stellar_age
  (fillBadConst age (val 5), s)

/-- The first-row seed and preference loop of `_choose_calculation`:
`values = value_estimates[0]`, then for each method in order overwrite
the entries of `values` that are still non-finite.  The first loop
iteration rewrites row zero onto itself and is a no-op, exactly as in
the source. -/
def preferenceMerge (value_estimates : List (List PyFloat)) : List PyFloat :=
  match value_estimates with
  | [] => []
  | v0 :: _ => value_estimates.foldl (fun values v => fillBad values v) v0

/-- The precision loop of `_choose_calculation` (with
`distribution=False`, so the point estimates `mu_estimates` coincide
with `value_estimates`): per method, the fractional uncertainty
`u / v` with `nan` replaced by `inf`; then per element keep the method
whose fractional uncertainty is strictly smaller than the running
best, ties resolved for the earlier method.  Returns the final
`values` together with the final running fractional uncertainty.  In
the source `values` and `current_fractional_uncertainty` alias row
zero of their parent arrays, which is harmless because row zero is
only read in the first iteration, where the strict self-comparison
makes the mask all-false; the embedding keeps them as separate values
and iterates over all rows including the first, which is equivalent. -/
noncomputable def precisionMerge (value_estimates uncertainty_estimates : List (List PyFloat)) :
    List PyFloat × List PyFloat :=
  let fracs := (List.zipWith
    (fun vrow urow => List.zipWith (fun vi ui => pyDiv ui vi) vrow urow)
    value_estimates uncertainty_estimates).map (List.map nanToInf)
  match value_estimates, fracs with
  | v0 :: _, f0 :: _ =>
    (List.zipWith Prod.mk value_estimates fracs).foldl
      (fun acc vf =>
        let mask := List.zipWith (fun fi ci => pyLt fi ci) vf.2 acc.2
        (maskedSetArr acc.1 mask vf.1, maskedSetArr acc.2 mask vf.2))
      (v0, f0)
  | _, _ => ([], [])

/-- The `_choose_calculation` wrapper, with `distribution=False` and
the per-method arrays already resolved: `value_estimates` holds
`self.get(m)` per method and `uncertainty_estimates` holds
`self.get_uncertainty(m)` per method.  An empty methods list raises
`IndexError` at `value_estimates[0]`.  The body computes the merged
`values` but contains no return statement, so the Python function
always returns `None`; the embedding records this as `Except.ok none`
after computing (and discarding) the same `values`. -/
noncomputable def _choose_calculation
    (value_estimates uncertainty_estimates : List (List PyFloat))
    (how_to_choose : String) : Except String (Option (List PyFloat)) :=
  match value_estimates with
  | [] => Except.error "IndexError"
  | v0 :: rest =>
    let values :=
      if how_to_choose = "preference" then preferenceMerge (v0 :: rest)
      else if how_to_choose = "precision" then
        (precisionMerge (v0 :: rest) uncertainty_estimates).1
      else v0
    let returned : Option (List PyFloat) := none
    let _ := values
    Except.ok returned

/-- The five output columns that `populate_one_or_more_columns` may
create for one quantity whose raw column carries errors and limits. -/
structure PopulatedColumns where
  value : Option (List PyFloat)
  uncertainty_upper : Option (List PyFloat)
  uncertainty_lower : Option (List PyFloat)
  lower_limit : Option (List PyFloat)
  upper_limit : Option (List PyFloat)

/-- The errors-and-limits branch of `populate_one_or_more_columns` in
`exoplanets.py`, for one quantity: given the raw value column, the two
raw error columns and the raw limit-flag column, the lower-limit
column is created only when some flag is `-1` and holds the raw value
where the flag is `-1` and `nan` elsewhere (the source assigns the
full column and then sets `is_lower == False` entries to `nan`, which
is the same thing elementwise); symmetrically for the upper-limit
column with flag `+1`; the value and uncertainty columns are created
only when some flag is `0` and are set to `nan` wherever the flag is
not `0`.  Unit attachment and the reference column do not affect
finiteness and are not modelled. -/
def populate_one_or_more_columns (vals err1 err2 : List PyFloat) (flag : List Int) :
    PopulatedColumns :=
  let lower :=
    if 0 < flag.countP (fun f => decide (f = -1)) then
      some (List.zipWith (fun v f => if f = -1 then v else nan) vals flag)
    else none
  let upper :=
    if 0 < flag.countP (fun f => decide (f = 1)) then
      some (List.zipWith (fun v f => if f = 1 then v else nan) vals flag)
    else none
  let bounded := 0 < flag.countP (fun f => decide (f = 0))
  let value :=
    if bounded then some (List.zipWith (fun v f => if f = 0 then v else nan) vals flag)
    else none
  let uncUp :=
    if bounded then some (List.zipWith (fun v f => if f = 0 then v else nan) err1 flag)
    else none
  let uncLo :=
    if bounded then some (List.zipWith (fun v f => if f = 0 then v else nan) err2 flag)
    else none
  ⟨value, uncUp, uncLo, lower, upper⟩

/-- A one-row store whose every column is missing (nan); used to
exercise the fallback branches at a concrete input. -/
def stdA : Standard :=
  ⟨[nan], [nan], [nan], [nan], [nan], [nan], [nan], [nan], [nan], [nan], [nan], none, [nan]⟩

/-- A one-row store whose every column is present and finite; used to
exercise the table-value branches at a concrete input. -/
def stdB : Standard :=
  ⟨[val 2], [val 1], [val 1], [val 1], [val 1], [val 1], [val 1], [val 1], [val 1],
    [val 1], [val 1], some [val 3], [val 4]⟩

/-- A one-row store with a zero eccentricity and a finite measured
longitude of periastron of 90 degrees. -/
def stdC : Standard :=
  ⟨[nan], [nan], [nan], [nan], [nan], [val 0], [val 90], [nan], [nan], [nan], [nan], none, [nan]⟩

/-- The radicand of the Kepler fill for a period of 365.25 day and a
stellar mass of 1 Msun, in SI units: G times M times P squared over
four pi squared. -/
noncomputable def keplerRadicandYear : ℝ :=
  con.G * (1 * con.M_sun) * ((365.25 * con.day) * (365.25 * con.day)) / 4 / Real.pi ^ 2

theorem e_fst (s : Standard) : (e s).1 = fillBadConst s.eccentricity (val 0) := rfl

theorem omega_fst (s : Standard) :
    (omega s).1 = maskedSet s.omega (((e s).1).map pyEq0) (val 0) := rfl

theorem semimajoraxis_fst (s : Standard) :
    (semimajoraxis s).1 =
      fillBad (fillBad s.semimajoraxis (List.zipWith pyKepler s.period s.stellar_mass))
        (List.zipWith transitGeomFill s.transit_ar s.stellar_radius) := rfl

theorem a_over_rs_fst (s : Standard) :
    (a_over_rs s).1 =
      fillBad s.transit_ar
        (List.zipWith (fun ai ri => convertBy (con.au / con.R_sun) (pyDiv ai ri))
          ((semimajoraxis s).1) s.stellar_radius) := rfl

theorem b_fst (s : Standard) :
    (b s).1 =
      fillBad s.transit_b
        (List.zipWith pyMul
          (List.zipWith pyMul ((a_over_rs s).1)
            (s.inclination.map (fun x => pyCos (convertBy con.degree x))))
          (List.zipWith
            (fun ei wi =>
              pyDiv (pySub (val 1) (pyPow2 ei))
                    (pyAdd (val 1) (pyMul ei (pySin (convertBy con.degree wi)))))
            ((e s).1) ((omega s).1))) := rfl

theorem transit_duration_fst (s : Standard) :
    (transit_duration s).1 =
      fillBad s.transit_duration
        ((List.zipWith pyMul
          (List.zipWith pyMul
            (List.zipWith (fun pi_ ai => pyDiv (pyDiv pi_ (val Real.pi)) ai)
              s.period ((a_over_rs s).1))
            (((impact_parameter s).1).map (fun x => pySqrt (pySub (val 1) (pyPow2 x)))))
          (List.zipWith
            (fun ei wi =>
              pyDiv (pySqrt (pySub (val 1) (pyPow2 ei)))
                    (pyAdd (val 1) (pyMul ei (pySin (convertBy con.degree wi)))))
            ((e s).1) ((omega s).1))).map (convertBy 24)) := rfl

theorem kludge_age_fst (s : Standard) : (kludge_age s).1 = fillBadConst s.stellar_age (val 5) := rfl

theorem zipWith_getD {α β γ : Type} (f : α → β → γ) (da : α) (db : β) (dc : γ) :
    ∀ (a : List α) (bl : List β) (i : ℕ),
      (List.zipWith f a bl).getD i dc =
        if i < a.length ∧ i < bl.length then f (a.getD i da) (bl.getD i db) else dc
  | [], bl, i => by simp
  | x :: a, [], i => by simp
  | x :: a, y :: bl, 0 => by simp
  | x :: a, y :: bl, i + 1 => by
    simpa [Nat.add_lt_add_iff_right] using zipWith_getD f da db dc a bl i

theorem map_getD {α β : Type} (f : α → β) (d : β) (da : α) :
    ∀ (l : List α) (i : ℕ),
      (l.map f).getD i d = if i < l.length then f (l.getD i da) else d
  | [], i => by simp
  | x :: l, 0 => by simp
  | x :: l, i + 1 => by
    simpa [Nat.add_lt_add_iff_right] using map_getD f d da l i

theorem finite_getD_lt (l : List PyFloat) (i : ℕ)
    (h : isFinite (l.getD i nan) = true) : i < l.length := by
  by_contra hc
  push_neg at hc
  rw [List.getD_eq_default l nan hc] at h
  simp [isFinite] at h

theorem countBad_fillBad_le : ∀ (a rhs : List PyFloat), countBad (fillBad a rhs) ≤ countBad a
  | [], rhs => by simp [fillBad, countBad]
  | x :: a, [] => by simp [fillBad, countBad]
  | x :: a, y :: rhs => by
    have ih := countBad_fillBad_le a rhs
    simp only [fillBad] at ih
    by_cases h : isFinite x
    · simp only [fillBad, List.zipWith_cons_cons, countBad, List.countP_cons, h, if_pos] at ih ⊢
      simp [h]
      omega
    · simp only [fillBad, List.zipWith_cons_cons, countBad, List.countP_cons] at ih ⊢
      by_cases hy : isFinite y <;> simp [h, hy] <;> omega

/-- C1: for a nonempty method list in preference mode,
`_choose_calculation` is claimed to return the full-length merged
array with the highest-priority finite value per element.  The body
does compute exactly that merged array (second conjunct, on the
spec example A = [nan, 2, nan], B = [1, 5, nan]), but the function
has no return statement, so it returns None (first conjunct) instead
of the merged array, contradicting its own docstring. -/
theorem c1_choose_preference_code_bug :
    _choose_calculation [[nan, val 2, nan], [val 1, val 5, nan]] [] "preference"
      = Except.ok none
    ∧ preferenceMerge [[nan, val 2, nan], [val 1, val 5, nan]]
      = [val 1, val 2, nan] :=
  ⟨rfl, rfl⟩

/-- C4: the `e` accessor keeps every finite table eccentricity
unchanged and returns exactly 0 at every element whose table value is
non-finite. -/
theorem c4_eccentricity_default (s : Standard) (i : ℕ) :
    (isFinite (s.eccentricity.getD i nan) = true →
      ((e s).1).getD i nan = s.eccentricity.getD i nan)
    ∧ (i < s.eccentricity.length → isFinite (s.eccentricity.getD i nan) = false →
      ((e s).1).getD i nan = val 0) := by
  rw [e_fst]
  simp only [fillBadConst]
  rw [map_getD (fun x => if isFinite x then x else val 0) nan nan s.eccentricity i]
  constructor
  · intro hf
    rw [if_pos (finite_getD_lt _ _ hf), if_pos hf]
  · intro hi hf
    rw [if_pos hi, if_neg]
    rw [hf]
    simp

theorem c4_eccentricity_default_witness :
    isFinite (stdA.eccentricity.getD 0 nan) = false
    ∧ ((e stdA).1).getD 0 nan = val 0 :=
  ⟨rfl, (c4_eccentricity_default stdA 0).2 (by decide) rfl⟩

/-- C6: no embedded accessor mutates the Quantity Store: each one
threads the store through unchanged (the source only ever reads
`self.standard`), and a second call on the resulting store returns
the identical array. -/
theorem c6_accessors_pure (s : Standard) :
    ((e s).2 = s ∧ (omega s).2 = s ∧ (semimajoraxis s).2 = s ∧
      (a_over_rs s).2 = s ∧ (b s).2 = s ∧ (transit_duration s).2 = s ∧
      (kludge_mass s).2 = s ∧ (kludge_age s).2 = s)
    ∧ ((e ((e s).2)).1 = (e s).1 ∧ (omega ((omega s).2)).1 = (omega s).1 ∧
      (semimajoraxis ((semimajoraxis s).2)).1 = (semimajoraxis s).1 ∧
      (a_over_rs ((a_over_rs s).2)).1 = (a_over_rs s).1 ∧
      (b ((b s).2)).1 = (b s).1 ∧
      (transit_duration ((transit_duration s).2)).1 = (transit_duration s).1 ∧
      (kludge_mass ((kludge_mass s).2)).1 = (kludge_mass s).1 ∧
      (kludge_age ((kludge_age s).2)).1 = (kludge_age s).1) := by
  have hkm : (kludge_mass s).2 = s := by
    cases hms : s.msini <;> simp [kludge_mass, hms]
  refine ⟨⟨rfl, rfl, rfl, rfl, rfl, rfl, hkm, rfl⟩,
    ⟨rfl, rfl, rfl, rfl, rfl, rfl, ?_, rfl⟩⟩
  rw [hkm]

/-- C7: the fallback chains of `semimajoraxis` and `kludge_mass` only
fill gaps: the number of non-finite entries of the returned array is
at most the number of non-finite entries of the primary table
column. -/
theorem c7_gapfill_monotone (s : Standard) :
    countBad ((semimajoraxis s).1) ≤ countBad s.semimajoraxis
    ∧ countBad ((kludge_mass s).1) ≤ countBad s.mass := by
  constructor
  · rw [semimajoraxis_fst]
    exact le_trans (countBad_fillBad_le _ _) (countBad_fillBad_le _ _)
  · cases hms : s.msini with
    | none => simp [kludge_mass, hms]
    | some ms =>
      simp only [kludge_mass, hms]
      exact countBad_fillBad_le _ _

/-- C10: when the `stellar_age` column exists, `kludge_age` returns an
array with no non-finite element at all: finite table ages are kept,
and every non-finite entry becomes exactly 5 (Gyr). -/
theorem c10_kludge_age_total (s : Standard) :
    ((kludge_age s).1).length = s.stellar_age.length
    ∧ (∀ x ∈ (kludge_age s).1, isFinite x = true)
    ∧ (∀ i : ℕ, isFinite (s.stellar_age.getD i nan) = true →
        ((kludge_age s).1).getD i nan = s.stellar_age.getD i nan)
    ∧ (∀ i : ℕ, i < s.stellar_age.length →
        isFinite (s.stellar_age.getD i nan) = false →
        ((kludge_age s).1).getD i nan = val 5) := by
  rw [kludge_age_fst]
  simp only [fillBadConst]
  refine ⟨List.length_map _ _, ?_, ?_, ?_⟩
  · intro x hx
    obtain ⟨y, _, rfl⟩ := List.mem_map.1 hx
    by_cases h : isFinite y = true
    · simp [h]
    · rw [if_neg h]
      rfl
  · intro i hf
    rw [map_getD (fun x => if isFinite x then x else val 5) nan nan s.stellar_age i,
      if_pos (finite_getD_lt _ _ hf), if_pos hf]
  · intro i hi hf
    rw [map_getD (fun x => if isFinite x then x else val 5) nan nan s.stellar_age i,
      if_pos hi, if_neg]
    rw [hf]
    simp

theorem c10_kludge_age_total_witness :
    isFinite (stdA.stellar_age.getD 0 nan) = false
    ∧ ((kludge_age stdA).1).getD 0 nan = val 5 :=
  ⟨rfl, (c10_kludge_age_total stdA).2.2.2 0 (by decide) rfl⟩

theorem omega_getD (s : Standard) (i : ℕ) :
    ((omega s).1).getD i nan =
      if i < s.omega.length ∧ i < s.eccentricity.length then
        (if pyEq0 (if isFinite (s.eccentricity.getD i nan) = true then
              s.eccentricity.getD i nan else val 0) = true
          then val 0 else s.omega.getD i nan)
      else nan := by
  rw [omega_fst, e_fst]
  simp only [maskedSet, fillBadConst, List.map_map]
  rw [zipWith_getD (fun x m => if m = true then val 0 else x) nan false nan s.omega
    (s.eccentricity.map (pyEq0 ∘ fun x => if isFinite x = true then x else val 0)) i]
  rw [List.length_map]
  by_cases hi : i < s.omega.length ∧ i < s.eccentricity.length
  · rw [if_pos hi, if_pos hi,
      map_getD (pyEq0 ∘ fun x => if isFinite x = true then x else val 0) false nan
        s.eccentricity i,
      if_pos hi.2]
    simp [Function.comp]
  · rw [if_neg hi, if_neg hi]

/-- C2 counterexample: a record with eccentricity 0 and a finite
measured longitude of periastron (90 degrees) in the table has that
finite value replaced by 0 by the `omega` accessor, because the
assignment mask of the source is `e_zero` alone, not restricted to the
missing entries.  This falsifies the claim that a finite measured
omega is never replaced. -/
theorem c2_omega_counterexample :
    isFinite (stdC.omega.getD 0 nan) = true
    ∧ ((omega stdC).1).getD 0 nan ≠ stdC.omega.getD 0 nan := by
  constructor
  · rfl
  · rw [omega_getD]
    simp [stdC, pyEq0, isFinite]

/-- C2 amended: the `omega` accessor returns 0 degrees at every
element whose gap-filled eccentricity equals 0, that is wherever the
table eccentricity is 0 or missing, even when a finite measured omega
is present in the table; at every element whose eccentricity is finite
and nonzero, the table omega value (finite or missing) is returned
unchanged. -/
theorem c2_omega_amended (s : Standard) (i : ℕ) :
    (i < s.omega.length → i < s.eccentricity.length →
      (isFinite (s.eccentricity.getD i nan) = false ∨ s.eccentricity.getD i nan = val 0) →
      ((omega s).1).getD i nan = val 0)
    ∧ (∀ y : ℝ, s.eccentricity.getD i nan = val y → y ≠ 0 →
      ((omega s).1).getD i nan = s.omega.getD i nan) := by
  constructor
  · intro h1 h2 h3
    rw [omega_getD, if_pos ⟨h1, h2⟩]
    rcases h3 with h | h
    · rw [h]
      simp [pyEq0]
    · rw [h]
      simp [pyEq0, isFinite]
  · intro y hy hy0
    have hecc : i < s.eccentricity.length := by
      by_contra hc
      push_neg at hc
      rw [List.getD_eq_default _ _ hc] at hy
      exact PyFloat.noConfusion hy
    rw [omega_getD]
    by_cases hom : i < s.omega.length
    · rw [if_pos ⟨hom, hecc⟩, hy]
      have hzero : pyEq0 (if isFinite (val y) = true then val y else val 0) = false := by
        simp [isFinite, pyEq0, hy0]
      rw [hzero]
      simp
    · rw [if_neg (fun hco => hom hco.1)]
      rw [List.getD_eq_default _ _ (Nat.le_of_not_lt hom)]

theorem c2_omega_amended_witness :
    isFinite (stdA.eccentricity.getD 0 nan) = false
    ∧ ((omega stdA).1).getD 0 nan = val 0 :=
  ⟨rfl, (c2_omega_amended stdA 0).1 (by decide) (by decide) (Or.inl rfl)⟩

theorem limitCol_finite {vals : List PyFloat} {flag : List Int} {c : Int} {i : ℕ}
    (h : isFinite ((List.zipWith (fun v f => if f = c then v else nan) vals flag).getD i nan)
      = true) :
    i < vals.length ∧ i < flag.length ∧ flag.getD i 0 = c := by
  rw [zipWith_getD (fun v f => if f = c then v else nan) nan 0 nan vals flag i] at h
  by_cases hi : i < vals.length ∧ i < flag.length
  · rw [if_pos hi] at h
    refine ⟨hi.1, hi.2, ?_⟩
    by_contra hc
    rw [if_neg hc] at h
    simp [isFinite] at h
  · rw [if_neg hi] at h
    simp [isFinite] at h

theorem limitCol_nan {vals : List PyFloat} {flag : List Int} {c : Int} {i : ℕ}
    (hne : flag.getD i 0 ≠ c) :
    (List.zipWith (fun v f => if f = c then v else nan) vals flag).getD i nan = nan := by
  rw [zipWith_getD (fun v f => if f = c then v else nan) nan 0 nan vals flag i]
  by_cases hi : i < vals.length ∧ i < flag.length
  · rw [if_pos hi, if_neg hne]
  · rw [if_neg hi]

theorem populate_lower_eq {vals err1 err2 : List PyFloat} {flag : List Int}
    {L : List PyFloat}
    (h : (populate_one_or_more_columns vals err1 err2 flag).lower_limit = some L) :
    L = List.zipWith (fun v f => if f = -1 then v else nan) vals flag := by
  simp only [populate_one_or_more_columns] at h
  split at h
  · exact (Option.some.inj h).symm
  · exact absurd h (by simp)

theorem populate_upper_eq {vals err1 err2 : List PyFloat} {flag : List Int}
    {L : List PyFloat}
    (h : (populate_one_or_more_columns vals err1 err2 flag).upper_limit = some L) :
    L = List.zipWith (fun v f => if f = 1 then v else nan) vals flag := by
  simp only [populate_one_or_more_columns] at h
  split at h
  · exact (Option.some.inj h).symm
  · exact absurd h (by simp)

theorem populate_value_eq {vals err1 err2 : List PyFloat} {flag : List Int}
    {V : List PyFloat}
    (h : (populate_one_or_more_columns vals err1 err2 flag).value = some V) :
    V = List.zipWith (fun v f => if f = 0 then v else nan) vals flag := by
  simp only [populate_one_or_more_columns] at h
  split at h
  · exact (Option.some.inj h).symm
  · exact absurd h (by simp)

theorem populate_uncUp_eq {vals err1 err2 : List PyFloat} {flag : List Int}
    {U : List PyFloat}
    (h : (populate_one_or_more_columns vals err1 err2 flag).uncertainty_upper = some U) :
    U = List.zipWith (fun v f => if f = 0 then v else nan) err1 flag := by
  simp only [populate_one_or_more_columns] at h
  split at h
  · exact (Option.some.inj h).symm
  · exact absurd h (by simp)

theorem populate_uncLo_eq {vals err1 err2 : List PyFloat} {flag : List Int}
    {U : List PyFloat}
    (h : (populate_one_or_more_columns vals err1 err2 flag).uncertainty_lower = some U) :
    U = List.zipWith (fun v f => if f = 0 then v else nan) err2 flag := by
  simp only [populate_one_or_more_columns] at h
  split at h
  · exact (Option.some.inj h).symm
  · exact absurd h (by simp)

/-- C9: in a standardized table built by the errors-and-limits branch
of `populate_one_or_more_columns`, the value and the limit columns of
one quantity are mutually exclusive per element: where a lower or
upper limit entry is finite (limit flag -1 or +1), the value and both
uncertainty entries are nan, and where the value entry is finite
(limit flag 0), both limit entries are nan. -/
theorem c9_value_limit_exclusive (vals err1 err2 : List PyFloat) (flag : List Int) (i : ℕ) :
    (∀ L, (populate_one_or_more_columns vals err1 err2 flag).lower_limit = some L →
      isFinite (L.getD i nan) = true →
      (∀ V, (populate_one_or_more_columns vals err1 err2 flag).value = some V →
        V.getD i nan = nan)
      ∧ (∀ U, (populate_one_or_more_columns vals err1 err2 flag).uncertainty_upper = some U →
        U.getD i nan = nan)
      ∧ (∀ U, (populate_one_or_more_columns vals err1 err2 flag).uncertainty_lower = some U →
        U.getD i nan = nan))
    ∧ (∀ L, (populate_one_or_more_columns vals err1 err2 flag).upper_limit = some L →
      isFinite (L.getD i nan) = true →
      (∀ V, (populate_one_or_more_columns vals err1 err2 flag).value = some V →
        V.getD i nan = nan)
      ∧ (∀ U, (populate_one_or_more_columns vals err1 err2 flag).uncertainty_upper = some U →
        U.getD i nan = nan)
      ∧ (∀ U, (populate_one_or_more_columns vals err1 err2 flag).uncertainty_lower = some U →
        U.getD i nan = nan))
    ∧ (∀ V, (populate_one_or_more_columns vals err1 err2 flag).value = some V →
      isFinite (V.getD i nan) = true →
      (∀ L, (populate_one_or_more_columns vals err1 err2 flag).lower_limit = some L →
        L.getD i nan = nan)
      ∧ (∀ L, (populate_one_or_more_columns vals err1 err2 flag).upper_limit = some L →
        L.getD i nan = nan)) := by
  refine ⟨?_, ?_, ?_⟩
  · intro L hL hfin
    rw [populate_lower_eq hL] at hfin
    obtain ⟨-, -, hflag⟩ := limitCol_finite hfin
    refine ⟨?_, ?_, ?_⟩
    · intro V hV
      rw [populate_value_eq hV]
      exact limitCol_nan (by rw [hflag]; decide)
    · intro U hU
      rw [populate_uncUp_eq hU]
      exact limitCol_nan (by rw [hflag]; decide)
    · intro U hU
      rw [populate_uncLo_eq hU]
      exact limitCol_nan (by rw [hflag]; decide)
  · intro L hL hfin
    rw [populate_upper_eq hL] at hfin
    obtain ⟨-, -, hflag⟩ := limitCol_finite hfin
    refine ⟨?_, ?_, ?_⟩
    · intro V hV
      rw [populate_value_eq hV]
      exact limitCol_nan (by rw [hflag]; decide)
    · intro U hU
      rw [populate_uncUp_eq hU]
      exact limitCol_nan (by rw [hflag]; decide)
    · intro U hU
      rw [populate_uncLo_eq hU]
      exact limitCol_nan (by rw [hflag]; decide)
  · intro V hV hfin
    rw [populate_value_eq hV] at hfin
    obtain ⟨-, -, hflag⟩ := limitCol_finite hfin
    refine ⟨?_, ?_⟩
    · intro L hL
      rw [populate_lower_eq hL]
      exact limitCol_nan (by rw [hflag]; decide)
    · intro L hL
      rw [populate_upper_eq hL]
      exact limitCol_nan (by rw [hflag]; decide)

theorem c9_value_limit_exclusive_witness :
    (populate_one_or_more_columns [val 1, val 2] [val 3, val 3] [val 3, val 3]
      [-1, 0]).lower_limit = some [val 1, nan]
    ∧ isFinite (([val 1, nan] : List PyFloat).getD 0 nan) = true
    ∧ (populate_one_or_more_columns [val 1, val 2] [val 3, val 3] [val 3, val 3]
      [-1, 0]).value = some [nan, val 2]
    ∧ ([nan, val 2] : List PyFloat).getD 0 nan = nan := by
  have h1 : (populate_one_or_more_columns [val 1, val 2] [val 3, val 3] [val 3, val 3]
      [-1, 0]).lower_limit = some [val 1, nan] := rfl
  have h2 : isFinite (([val 1, nan] : List PyFloat).getD 0 nan) = true := rfl
  have h3 : (populate_one_or_more_columns [val 1, val 2] [val 3, val 3] [val 3, val 3]
      [-1, 0]).value = some [nan, val 2] := rfl
  exact ⟨h1, h2, h3,
    ((c9_value_limit_exclusive [val 1, val 2] [val 3, val 3] [val 3, val 3] [-1, 0] 0).1
      [val 1, nan] h1 h2).1 [nan, val 2] h3⟩

/-- C3: in precision mode the loop of `_choose_calculation` does
select, per element, the method with the strictly smallest fractional
uncertainty, ties going to the earlier method: on the spec example
A = 10 with uncertainty 2 (fractional 0.2) and B = 10 with
uncertainty 1 (fractional 0.1), the internal merge ends with value 10
taken from B and running fractional uncertainty 0.1 (second
conjunct).  But the function has no return statement, so it returns
None (first conjunct) instead of the selected values, contradicting
its own docstring. -/
theorem c3_choose_precision_code_bug :
    _choose_calculation [[val 10], [val 10]] [[val 2], [val 1]] "precision" = Except.ok none
    ∧ precisionMerge [[val 10], [val 10]] [[val 2], [val 1]]
      = ([val 10], [val ((1 : ℝ) / 10)]) := by
  constructor
  · rfl
  · have d2 : pyDiv (val (2 : ℝ)) (val 10) = val (1 / 5) := by norm_num [pyDiv]
    have d1 : pyDiv (val (1 : ℝ)) (val 10) = val (1 / 10) := by norm_num [pyDiv]
    have l22 : pyLt (val ((1 : ℝ) / 5)) (val (1 / 5)) = false := by
      norm_num [pyLt]
    have l12 : pyLt (val ((1 : ℝ) / 10)) (val (1 / 5)) = true := by
      norm_num [pyLt]
    simp only [precisionMerge, List.zipWith_cons_cons, List.zipWith_nil, List.map_cons,
      List.map_nil, d2, d1, nanToInf, isNan, List.foldl_cons, List.foldl_nil,
      maskedSetArr, l22, l12]
    norm_num
    exact l12

theorem fillBad_getD_keep {a r : List PyFloat} {i : ℕ}
    (hlen : (fillBad a r).length = a.length)
    (hf : isFinite (a.getD i nan) = true) :
    (fillBad a r).getD i nan = a.getD i nan := by
  have hd : i < a.length := finite_getD_lt _ _ hf
  have hr : a.length ≤ r.length := by
    simp only [fillBad, List.length_zipWith] at hlen
    omega
  simp only [fillBad]
  rw [zipWith_getD (fun x y => if isFinite x = true then x else y) nan nan nan a r i,
    if_pos ⟨hd, lt_of_lt_of_le hd hr⟩, if_pos hf]

theorem length_e (s : Standard) {n : ℕ} (h : s.WF n) : ((e s).1).length = n := by
  obtain ⟨h1, h2, h3, h4, h5, h6, h7, h8, h9, h10, h11, h12, h13⟩ := h
  rw [e_fst]
  simp [fillBadConst, h6]

theorem length_omega (s : Standard) {n : ℕ} (h : s.WF n) : ((omega s).1).length = n := by
  have he := length_e s h
  obtain ⟨h1, h2, h3, h4, h5, h6, h7, h8, h9, h10, h11, h12, h13⟩ := h
  rw [omega_fst]
  simp [maskedSet, List.length_zipWith, he, h7]

theorem length_semimajoraxis (s : Standard) {n : ℕ} (h : s.WF n) :
    ((semimajoraxis s).1).length = n := by
  obtain ⟨h1, h2, h3, h4, h5, h6, h7, h8, h9, h10, h11, h12, h13⟩ := h
  rw [semimajoraxis_fst]
  simp [fillBad, List.length_zipWith, h1, h2, h3, h4, h5]

theorem length_a_over_rs (s : Standard) {n : ℕ} (h : s.WF n) :
    ((a_over_rs s).1).length = n := by
  have hs := length_semimajoraxis s h
  obtain ⟨h1, h2, h3, h4, h5, h6, h7, h8, h9, h10, h11, h12, h13⟩ := h
  rw [a_over_rs_fst]
  simp [fillBad, List.length_zipWith, hs, h4, h5]

theorem length_b (s : Standard) {n : ℕ} (h : s.WF n) : ((b s).1).length = n := by
  have ha := length_a_over_rs s h
  have he := length_e s h
  have hw := length_omega s h
  obtain ⟨h1, h2, h3, h4, h5, h6, h7, h8, h9, h10, h11, h12, h13⟩ := h
  rw [b_fst]
  simp [fillBad, List.length_zipWith, ha, he, hw, h8, h9]

theorem length_transit_duration (s : Standard) {n : ℕ} (h : s.WF n) :
    ((transit_duration s).1).length = n := by
  have ha := length_a_over_rs s h
  have hb := length_b s h
  have he := length_e s h
  have hw := length_omega s h
  obtain ⟨h1, h2, h3, h4, h5, h6, h7, h8, h9, h10, h11, h12, h13⟩ := h
  rw [transit_duration_fst]
  simp [fillBad, impact_parameter, List.length_zipWith, List.length_map, ha, hb, he, hw,
    h2, h10]

/-- C8: on a well-formed store of population size n, the
`transit_duration` accessor returns an array of exactly n elements
aligned with the population, and every element whose table value is
finite keeps that value; elements whose estimation fails hold nan by
the elementwise nan propagation of the formula, never shortening or
aborting the whole-column result. -/
theorem c8_transit_duration_full_length (s : Standard) (n : ℕ) (h : s.WF n) :
    ((transit_duration s).1).length = n
    ∧ (∀ i : ℕ, isFinite (s.transit_duration.getD i nan) = true →
      ((transit_duration s).1).getD i nan = s.transit_duration.getD i nan) := by
  refine ⟨length_transit_duration s h, ?_⟩
  intro i hf
  have hlen : ((transit_duration s).1).length = s.transit_duration.length := by
    rw [length_transit_duration s h]
    exact (h.2.2.2.2.2.2.2.2.2.1).symm
  rw [transit_duration_fst] at hlen ⊢
  exact fillBad_getD_keep hlen hf

theorem c8_transit_duration_full_length_witness :
    stdB.WF 1 ∧ ((transit_duration stdB).1).length = 1 := by
  have hwf : stdB.WF 1 := by
    refine ⟨rfl, rfl, rfl, rfl, rfl, rfl, rfl, rfl, rfl, rfl, rfl, ?_, rfl⟩
    intro ms hms
    have hms2 : ms = [val 3] := by simpa [stdB] using hms.symm
    rw [hms2]
    rfl
  exact ⟨hwf, (c8_transit_duration_full_length stdB 1 hwf).1⟩

theorem pyMul_val_val (x y : ℝ) : pyMul (val x) (val y) = val (x * y) := rfl

theorem pyDiv_val_val {x y : ℝ} (hy : y ≠ 0) : pyDiv (val x) (val y) = val (x / y) := by
  simp only [pyDiv]
  rw [if_neg hy]

theorem pyPow13_val {x : ℝ} (hx : 0 ≤ x) : pyPow13 (val x) = val (x ^ ((1 : ℝ) / 3)) := by
  simp only [pyPow13]
  rw [if_pos hx]

theorem zipWith_getD_at {α β γ : Type} (f : α → β → γ) (da : α) (db : β) (dc : γ)
    {a : List α} {bl : List β} {i : ℕ} (ha : i < a.length) (hb : i < bl.length) :
    (List.zipWith f a bl).getD i dc = f (a.getD i da) (bl.getD i db) := by
  rw [zipWith_getD f da db dc a bl i, if_pos ⟨ha, hb⟩]

theorem fillBad_getD_at {a r : List PyFloat} {i : ℕ} (ha : i < a.length)
    (hr : i < r.length) :
    (fillBad a r).getD i nan
      = if isFinite (a.getD i nan) = true then a.getD i nan else r.getD i nan := by
  simp only [fillBad]
  exact zipWith_getD_at (fun x y => if isFinite x = true then x else y) nan nan nan ha hr

theorem rpow_third_cube {c : ℝ} (hc : 0 ≤ c) : ((c ^ (3 : ℕ)) : ℝ) ^ ((1 : ℝ) / 3) = c := by
  rw [← Real.rpow_natCast c 3, ← Real.rpow_mul hc]
  norm_num

theorem keplerRadicandYear_pos : 0 < keplerRadicandYear := by
  have hG : (0 : ℝ) < con.G := by norm_num [con.G]
  have hM : (0 : ℝ) < con.M_sun := by norm_num [con.M_sun, con.GM_sun, con.G]
  have hday : (0 : ℝ) < 365.25 * con.day := by norm_num [con.day]
  have hpi : (0 : ℝ) < Real.pi ^ 2 := pow_pos Real.pi_pos 2
  have h1M : (0 : ℝ) < 1 * con.M_sun := by simpa using hM
  exact div_pos (div_pos (mul_pos (mul_pos hG h1M) (mul_pos hday hday)) (by norm_num)) hpi

theorem kepler_year_eval :
    pyKepler (val 365.25) (val 1)
      = val (keplerRadicandYear ^ ((1 : ℝ) / 3) / con.au) := by
  have h4 : (4 : ℝ) ≠ 0 := by norm_num
  have hpi2 : (Real.pi ^ 2) ≠ 0 := pow_ne_zero 2 Real.pi_ne_zero
  have hau : con.au ≠ 0 := by norm_num [con.au]
  have hr0 : 0 ≤ keplerRadicandYear := keplerRadicandYear_pos.le
  calc pyKepler (val 365.25) (val 1)
      = pyDiv (pyPow13 (pyDiv (pyDiv
          (val (con.G * (1 * con.M_sun) * ((365.25 * con.day) * (365.25 * con.day))))
          (val 4)) (val (Real.pi ^ 2)))) (val con.au) := rfl
    _ = pyDiv (pyPow13 (pyDiv
          (val (con.G * (1 * con.M_sun) * ((365.25 * con.day) * (365.25 * con.day)) / 4))
          (val (Real.pi ^ 2)))) (val con.au) := by rw [pyDiv_val_val h4]
    _ = pyDiv (pyPow13 (val keplerRadicandYear)) (val con.au) := by
          rw [pyDiv_val_val hpi2]
          rfl
    _ = pyDiv (val (keplerRadicandYear ^ ((1 : ℝ) / 3))) (val con.au) := by
          rw [pyPow13_val hr0]
    _ = val (keplerRadicandYear ^ ((1 : ℝ) / 3) / con.au) := pyDiv_val_val hau

theorem kepler_year_bounds :
    0.999 < keplerRadicandYear ^ ((1 : ℝ) / 3) / con.au
    ∧ keplerRadicandYear ^ ((1 : ℝ) / 3) / con.au < 1.001 := by
  have hau : (0 : ℝ) < con.au := by norm_num [con.au]
  have hpi_lo := Real.pi_gt_d6
  have hpi_hi := Real.pi_lt_d6
  have hpi_pos := Real.pi_pos
  have hpisq_pos : (0 : ℝ) < Real.pi ^ 2 := pow_pos hpi_pos 2
  have hpisq_lt : Real.pi ^ 2 < 3.141593 ^ 2 := by nlinarith [hpi_hi, hpi_pos]
  have hpisq_gt : (3.141592 : ℝ) ^ 2 < Real.pi ^ 2 := by nlinarith [hpi_lo, hpi_pos]
  have hclo : (0 : ℝ) < 0.999 * con.au := by norm_num [con.au]
  have hchi : (0 : ℝ) < 1.001 * con.au := by norm_num [con.au]
  have hlow : (0.999 * con.au) ^ (3 : ℕ) < keplerRadicandYear := by
    rw [keplerRadicandYear, lt_div_iff₀ hpisq_pos]
    calc (0.999 * con.au) ^ (3 : ℕ) * Real.pi ^ 2
        < (0.999 * con.au) ^ (3 : ℕ) * 3.141593 ^ 2 :=
          mul_lt_mul_of_pos_left hpisq_lt (pow_pos hclo 3)
      _ < con.G * (1 * con.M_sun) * ((365.25 * con.day) * (365.25 * con.day)) / 4 := by
          norm_num [con.au, con.G, con.M_sun, con.GM_sun, con.day]
  have hup : keplerRadicandYear < (1.001 * con.au) ^ (3 : ℕ) := by
    rw [keplerRadicandYear, div_lt_iff₀ hpisq_pos]
    calc con.G * (1 * con.M_sun) * ((365.25 * con.day) * (365.25 * con.day)) / 4
        < (1.001 * con.au) ^ (3 : ℕ) * 3.141592 ^ 2 := by
          norm_num [con.au, con.G, con.M_sun, con.GM_sun, con.day]
      _ < (1.001 * con.au) ^ (3 : ℕ) * Real.pi ^ 2 :=
          mul_lt_mul_of_pos_left hpisq_gt (pow_pos hchi 3)
  have hcube_lo : (0.999 * con.au) < keplerRadicandYear ^ ((1 : ℝ) / 3) := by
    have h1 : ((0.999 * con.au) ^ (3 : ℕ)) ^ ((1 : ℝ) / 3)
        < keplerRadicandYear ^ ((1 : ℝ) / 3) :=
      Real.rpow_lt_rpow (by positivity) hlow (by norm_num)
    rwa [rpow_third_cube hclo.le] at h1
  have hcube_hi : keplerRadicandYear ^ ((1 : ℝ) / 3) < 1.001 * con.au := by
    have h1 : keplerRadicandYear ^ ((1 : ℝ) / 3)
        < ((1.001 * con.au) ^ (3 : ℕ)) ^ ((1 : ℝ) / 3) :=
      Real.rpow_lt_rpow keplerRadicandYear_pos.le hup (by norm_num)
    rwa [rpow_third_cube hchi.le] at h1
  constructor
  · rw [lt_div_iff₀ hau]
    linarith [hcube_lo]
  · rw [div_lt_iff₀ hau]
    linarith [hcube_hi]

/-- C5: the `semimajoraxis` accessor keeps finite table entries;
where the table entry is missing it substitutes the Kepler value
computed from `period` and `stellar_mass` (and for a period of
365.25 day and a stellar mass of 1 Msun this value is 1 AU to within
a tenth of a percent); entries still non-finite after that are filled
with the transit-geometry product of `transit_ar` and
`stellar_radius`, both read directly from the standardized table. -/
theorem c5_semimajoraxis_fallbacks :
    (∀ (s : Standard) (n : ℕ), s.WF n → ∀ i : ℕ,
      (isFinite (s.semimajoraxis.getD i nan) = true →
        ((semimajoraxis s).1).getD i nan = s.semimajoraxis.getD i nan)
      ∧ (i < n → isFinite (s.semimajoraxis.getD i nan) = false →
        isFinite (pyKepler (s.period.getD i nan) (s.stellar_mass.getD i nan)) = true →
        ((semimajoraxis s).1).getD i nan
          = pyKepler (s.period.getD i nan) (s.stellar_mass.getD i nan))
      ∧ (i < n → isFinite (s.semimajoraxis.getD i nan) = false →
        isFinite (pyKepler (s.period.getD i nan) (s.stellar_mass.getD i nan)) = false →
        ((semimajoraxis s).1).getD i nan
          = transitGeomFill (s.transit_ar.getD i nan) (s.stellar_radius.getD i nan)))
    ∧ (∃ x : ℝ, pyKepler (val 365.25) (val 1) = val x ∧ 0.999 < x ∧ x < 1.001) := by
  constructor
  · intro s n h i
    obtain ⟨h1, h2, h3, h4, h5, h6, h7, h8, h9, h10, h11, h12, h13⟩ := h
    have hKlen : (List.zipWith pyKepler s.period s.stellar_mass).length = n := by
      simp [List.length_zipWith, h2, h3]
    have hTlen :
        (List.zipWith transitGeomFill s.transit_ar s.stellar_radius).length = n := by
      simp [List.length_zipWith, h4, h5]
    have hA1len :
        (fillBad s.semimajoraxis (List.zipWith pyKepler s.period s.stellar_mass)).length
          = n := by
      simp [fillBad, List.length_zipWith, h1, h2, h3]
    rw [semimajoraxis_fst]
    have hpoint : i < n →
        ((fillBad (fillBad s.semimajoraxis (List.zipWith pyKepler s.period s.stellar_mass))
          (List.zipWith transitGeomFill s.transit_ar s.stellar_radius)).getD i nan
        = if isFinite (if isFinite (s.semimajoraxis.getD i nan) = true then
              s.semimajoraxis.getD i nan
            else pyKepler (s.period.getD i nan) (s.stellar_mass.getD i nan)) = true then
            (if isFinite (s.semimajoraxis.getD i nan) = true then
              s.semimajoraxis.getD i nan
            else pyKepler (s.period.getD i nan) (s.stellar_mass.getD i nan))
          else transitGeomFill (s.transit_ar.getD i nan) (s.stellar_radius.getD i nan)) := by
      intro hin
      have hiA1 : i < (fillBad s.semimajoraxis
          (List.zipWith pyKepler s.period s.stellar_mass)).length := by
        rw [hA1len]; exact hin
      have hiT : i < (List.zipWith transitGeomFill s.transit_ar s.stellar_radius).length := by
        rw [hTlen]; exact hin
      have hia : i < s.semimajoraxis.length := by rw [h1]; exact hin
      have hiK : i < (List.zipWith pyKepler s.period s.stellar_mass).length := by
        rw [hKlen]; exact hin
      have hiP : i < s.period.length := by rw [h2]; exact hin
      have hiM : i < s.stellar_mass.length := by rw [h3]; exact hin
      have hiar : i < s.transit_ar.length := by rw [h5]; exact hin
      have hirs : i < s.stellar_radius.length := by rw [h4]; exact hin
      rw [fillBad_getD_at hiA1 hiT, fillBad_getD_at hia hiK,
        zipWith_getD_at pyKepler nan nan nan hiP hiM,
        zipWith_getD_at transitGeomFill nan nan nan hiar hirs]
    refine ⟨?_, ?_, ?_⟩
    · intro hf
      have hin : i < n := by
        have hfl := finite_getD_lt _ _ hf
        rw [h1] at hfl
        exact hfl
      rw [hpoint hin, if_pos hf]
      rw [if_pos hf]
    · intro hin hf hk
      rw [hpoint hin, hf]
      simp only [Bool.false_eq_true, if_false]
      rw [if_pos hk]
    · intro hin hf hk
      rw [hpoint hin, hf]
      simp only [Bool.false_eq_true, if_false]
      rw [hk]
      simp only [Bool.false_eq_true, if_false]
  · exact ⟨keplerRadicandYear ^ ((1 : ℝ) / 3) / con.au, kepler_year_eval,
      kepler_year_bounds.1, kepler_year_bounds.2⟩

theorem c5_semimajoraxis_fallbacks_witness :
    stdB.WF 1
    ∧ isFinite (stdB.semimajoraxis.getD 0 nan) = true
    ∧ ((semimajoraxis stdB).1).getD 0 nan = val 2 := by
  have hwf : stdB.WF 1 := by
    refine ⟨rfl, rfl, rfl, rfl, rfl, rfl, rfl, rfl, rfl, rfl, rfl, ?_, rfl⟩
    intro ms hms
    have hms2 : ms = [val 3] := by simpa [stdB] using hms.symm
    rw [hms2]
    rfl
  refine ⟨hwf, rfl, ?_⟩
  have hkeep := (c5_semimajoraxis_fallbacks.1 stdB 1 hwf 0).1 rfl
  rw [hkeep]
  rfl

end ExoAtlas
